import Mathlib

/-!
Verification of the vmake-catalog product-query, facet and wishlist subsystem.

The development shallowly embeds the in-memory storage backend
(`MemStorage` in the server storage module) and the `GET /api/products`
listing route.  JavaScript `Map`s are modelled as lists in insertion order
(`Array.from(map.values())` enumerates a `Map` in insertion order), numbers
flowing out of `parseInt` are modelled by `JSInt` (an integer or `NaN`),
`Array.prototype.slice` with its `NaN`/negative-index clamping by
`jsSliceFrom`/`jsSliceTo`, and the stable `Array.prototype.sort` by a stable
insertion sort.  String comparison (`"<"` on JS strings and the default
`sort()` comparator) is modelled as lexicographic order on code points and
`localeCompare` is modelled the same way; `toLowerCase` is modelled as
per-character ASCII lowercasing, which agrees with JS on the data handled
here.
-/

namespace Vmake

/-- Lexicographic comparison of char lists by code point, the order used by
the default JS `Array.prototype.sort()` on strings (UTF-16 code-unit order,
which coincides with code-point order on the basic multilingual plane). -/
def lexLe : List Char → List Char → Bool
  | [], _ => true
  | _ :: _, [] => false
  | a :: as, b :: bs =>
    if a.toNat < b.toNat then true
    else if b.toNat < a.toNat then false
    else lexLe as bs

/-- String comparison used to model both the default `sort()` comparator and
`localeCompare`-based comparators. -/
def strLe (a b : String) : Bool := lexLe a.data b.data

/-- Model of `String.prototype.toLowerCase` (per-character ASCII lowering). -/
def lowerStr (s : String) : String := String.mk (s.data.map Char.toLower)

/-- Does `hs` contain `needle` as a contiguous run (JS `String.prototype.includes`)? -/
def hasSub : List Char → List Char → Bool
  | [], needle => needle.isEmpty
  | c :: rest, needle => needle.isPrefixOf (c :: rest) || hasSub rest needle

/-- Model of `haystack.includes(needle)` on JS strings. -/
def strIncludes (haystack needle : String) : Bool := hasSub haystack.data needle.data

/-- JS truthiness of an optional string: `undefined` and `""` are falsy,
every other string is truthy. -/
def truthy : Option String → Bool
  | none => false
  | some s => !(s == "")

/-- A JS number produced by `parseInt`: an integer or `NaN`. -/
inductive JSInt where
  | int : Int → JSInt
  | nan : JSInt
deriving DecidableEq

/-- JS subtraction on `JSInt` (`NaN` propagates). -/
def jsSub : JSInt → JSInt → JSInt
  | .int a, .int b => .int (a - b)
  | _, _ => .nan

/-- JS multiplication on `JSInt` (`NaN` propagates). -/
def jsMul : JSInt → JSInt → JSInt
  | .int a, .int b => .int (a * b)
  | _, _ => .nan

/-- ECMAScript relative-index resolution for `Array.prototype.slice`:
`NaN` becomes `0`, negative indices count from the end, and the result is
clamped into `[0, len]`. -/
def jsIndex (len : Nat) : JSInt → Nat
  | .nan => 0
  | .int n => if n < 0 then ((len : Int) + n).toNat else min n.toNat len

/-- Model of `l.slice(v)`. -/
def jsSliceFrom (l : List α) (v : JSInt) : List α := l.drop (jsIndex l.length v)

/-- Model of `l.slice(0, v)`. -/
def jsSliceTo (l : List α) (v : JSInt) : List α := l.take (jsIndex l.length v)

/-- Whitespace skipped by `parseInt`. -/
def jsIsSpace (c : Char) : Bool :=
  c == ' ' || c == '\t' || c == '\n' || c == '\r' || c == '\x0b' || c == '\x0c'

/-- Decimal digit value of a char, if any. -/
def digit10 (c : Char) : Option Nat :=
  if 48 ≤ c.toNat && c.toNat ≤ 57 then some (c.toNat - 48) else none

/-- Hexadecimal digit value of a char, if any. -/
def digit16 (c : Char) : Option Nat :=
  if 48 ≤ c.toNat && c.toNat ≤ 57 then some (c.toNat - 48)
  else if 97 ≤ c.toNat && c.toNat ≤ 102 then some (c.toNat - 87)
  else if 65 ≤ c.toNat && c.toNat ≤ 70 then some (c.toNat - 55)
  else none

/-- Accumulate the value of the longest digit run at the head of the list. -/
def digitsVal (digv : Char → Option Nat) (base : Nat) : List Char → Nat → Nat
  | [], acc => acc
  | c :: cs, acc =>
    match digv c with
    | some d => digitsVal digv base cs (acc * base + d)
    | none => acc

/-- Parse digits in the given base; `NaN` unless at least one digit is present. -/
def parseDigits (digv : Char → Option Nat) (base : Nat) (sign : Bool) (cs : List Char) : JSInt :=
  match cs with
  | [] => .nan
  | c :: _ =>
    match digv c with
    | none => .nan
    | some _ =>
      let v : Int := digitsVal digv base cs 0
      .int (if sign then v else -v)

/-- Model of JS `parseInt(s)` with an unspecified radix: skip leading
whitespace, read an optional sign, honour a `0x`/`0X` prefix as hexadecimal,
then read the longest run of digits; `NaN` when no digit is read. -/
def parseIntJS (s : String) : JSInt :=
  let cs := s.data.dropWhile jsIsSpace
  let signAndRest : Bool × List Char :=
    match cs with
    | '-' :: rest => (false, rest)
    | '+' :: rest => (true, rest)
    | _ => (true, cs)
  match signAndRest.2 with
  | '0' :: x :: rest =>
    if x == 'x' || x == 'X' then parseDigits digit16 16 signAndRest.1 rest
    else parseDigits digit10 10 signAndRest.1 signAndRest.2
  | _ => parseDigits digit10 10 signAndRest.1 signAndRest.2

/-- Result of `Math.ceil(total / limit)` on a count and a `JSInt` limit:
a finite integer, `NaN` (limit `NaN`, or `0/0`) or `Infinity` (positive
total over limit `0`).  The route's operands are small integers, for which
the float division is exact enough that the ceiling agrees with the exact
rational ceiling modelled here. -/
inductive JSCeil where
  | fin : Int → JSCeil
  | nan : JSCeil
  | inf : JSCeil
deriving DecidableEq

/-- Model of `Math.ceil(total / limit)`. -/
def jsCeilDiv (total : Nat) : JSInt → JSCeil
  | .nan => .nan
  | .int l =>
    if l = 0 then (if total = 0 then .nan else .inf)
    else if 0 < l then .fin ((total + l.toNat - 1) / l.toNat : Nat)
    else .fin (-((total / (-l).toNat : Nat) : Int))

/-- Insert `x` after every element `y` with `le y x`; the insertion step of a
stable insertion sort. -/
def insertStable (le : α → α → Bool) (x : α) : List α → List α
  | [] => [x]
  | y :: ys => if le y x then y :: insertStable le x ys else x :: y :: ys

/-- Stable sort: elements are inserted left to right, each after all
already-placed elements not greater than it, so ties keep their original
order — the guarantee of `Array.prototype.sort`. -/
def stableSort (le : α → α → Bool) (l : List α) : List α :=
  l.foldl (fun acc x => insertStable le x acc) []

/-- JS `Set` insertion followed by `Array.from`: append if not yet present. -/
def insertUnique (acc : List String) (x : String) : List String :=
  if acc.contains x then acc else acc ++ [x]

/-- A catalog product.  Fields not consulted by the verified operations
(images, description, status, the three dimensions) are omitted; the
`createdAt` timestamp is modelled as a natural number. -/
structure Product where
  id : Nat
  name : String
  code : String
  category : String
  finish : String
  material : String
  createdAt : Nat
deriving DecidableEq

/-- Insertion payload of `createProduct`/`bulkCreateProducts`.  The source's
`insertProduct.material || ""` is the identity on strings, so `material` is
kept as a plain string. -/
structure InsertProduct where
  name : String
  code : String
  category : String
  finish : String
  material : String
deriving DecidableEq

/-- A wishlist association record. -/
structure WishlistEntry where
  id : Nat
  userId : Nat
  productId : Nat
  createdAt : Nat
deriving DecidableEq

/-- The in-memory store (`MemStorage`): the `products` and `wishlists` maps
as lists in insertion order plus the two id counters.  The `users` map is
not consulted by the verified operations and is omitted. -/
structure MemStorage where
  products : List Product
  wishlists : List WishlistEntry
  currentProductId : Nat
  currentWishlistId : Nat
deriving DecidableEq

/-- `Map.set` keyed by `key`: replace in place when the key is present,
append otherwise. -/
def setByKey (key : α → Nat) (l : List α) (x : α) : List α :=
  if l.any (fun y => key y == key x) then
    l.map (fun y => if key y == key x then x else y)
  else l ++ [x]

/-- `Map.delete` keyed by `key`: report whether the key was present and
remove its entry. -/
def deleteByKey (key : α → Nat) (l : List α) (k : Nat) : Bool × List α :=
  (l.any (fun y => key y == k), l.filter (fun y => !(key y == k)))

/-- The disjunctive case-insensitive substring predicate of
`searchProducts`/`getSearchCount` over name, code, category and finish. -/
def matchesSearch (query : String) (p : Product) : Bool :=
  strIncludes (lowerStr p.name) (lowerStr query) ||
  strIncludes (lowerStr p.code) (lowerStr query) ||
  strIncludes (lowerStr p.category) (lowerStr query) ||
  strIncludes (lowerStr p.finish) (lowerStr query)

/-- `MemStorage.searchProducts(query, limit?, offset?)`. -/
def searchProducts (s : MemStorage) (query : String) (limit offset : Option JSInt) : List Product :=
  let results := s.products.filter (matchesSearch query)
  let results := match offset with | none => results | some o => jsSliceFrom results o
  match limit with | none => results | some l => jsSliceTo results l

/-- `MemStorage.getSearchCount(query)`. -/
def getSearchCount (s : MemStorage) (query : String) : Nat :=
  (s.products.filter (matchesSearch query)).length

/-- The filter/sort/pagination argument object of `filterProducts`. -/
structure Filters where
  category : Option String
  finish : Option String
  material : Option String
  sortBy : Option String
  limit : Option JSInt
  offset : Option JSInt
deriving DecidableEq

/-- The sort switch of `filterProducts`: `code`, `category` and `newest`
(descending `createdAt`) are recognised, anything else falls to the default
name-ascending comparator. -/
def sortFiltered (sortBy : Option String) (ps : List Product) : List Product :=
  match sortBy with
  | some s =>
    if s == "code" then stableSort (fun a b => strLe a.code b.code) ps
    else if s == "category" then stableSort (fun a b => strLe a.category b.category) ps
    else if s == "newest" then stableSort (fun a b => decide (b.createdAt ≤ a.createdAt)) ps
    else stableSort (fun a b => strLe a.name b.name) ps
  | none => stableSort (fun a b => strLe a.name b.name) ps

/-- `MemStorage.filterProducts(filters)`: truthy facet constraints applied as
exact matches in sequence, then the sort switch, then `slice(offset)` and
`slice(0, limit)`. -/
def filterProducts (s : MemStorage) (f : Filters) : List Product :=
  let ps := s.products
  let ps := if truthy f.category then ps.filter (fun p => p.category == f.category.getD "") else ps
  let ps := if truthy f.finish then ps.filter (fun p => p.finish == f.finish.getD "") else ps
  let ps := if truthy f.material then ps.filter (fun p => p.material == f.material.getD "") else ps
  let ps := sortFiltered f.sortBy ps
  let ps := match f.offset with | none => ps | some o => jsSliceFrom ps o
  match f.limit with | none => ps | some l => jsSliceTo ps l

/-- `MemStorage.getFilterCount(filters)`. -/
def getFilterCount (s : MemStorage) (category finish material : Option String) : Nat :=
  let ps := s.products
  let ps := if truthy category then ps.filter (fun p => p.category == category.getD "") else ps
  let ps := if truthy finish then ps.filter (fun p => p.finish == finish.getD "") else ps
  let ps := if truthy material then ps.filter (fun p => p.material == material.getD "") else ps
  ps.length

/-- `MemStorage.createProduct(insertProduct)`: assign `currentProductId`,
bump the counter and `Map.set` the new record.  `now` stands for
`new Date()`. -/
def createProduct (s : MemStorage) (ip : InsertProduct) (now : Nat) : Product × MemStorage :=
  let id := s.currentProductId
  let p : Product := ⟨id, ip.name, ip.code, ip.category, ip.finish, ip.material, now⟩
  (p, ⟨setByKey Product.id s.products p, s.wishlists, id + 1, s.currentWishlistId⟩)

/-- `MemStorage.bulkCreateProducts(insertProducts)`: the loop body repeats
the construction of `createProduct` for each payload. -/
def bulkCreateProducts : MemStorage → List InsertProduct → Nat → List Product × MemStorage
  | s, [], _ => ([], s)
  | s, ip :: rest, now =>
    let pr := createProduct s ip now
    let tail := bulkCreateProducts pr.2 rest now
    (pr.1 :: tail.1, tail.2)

/-- `MemStorage.deleteProduct(id)`. -/
def deleteProduct (s : MemStorage) (id : Nat) : Bool × MemStorage :=
  let d := deleteByKey Product.id s.products id
  (d.1, ⟨d.2, s.wishlists, s.currentProductId, s.currentWishlistId⟩)

/-- `MemStorage.isInWishlist(userId, productId)`. -/
def isInWishlist (s : MemStorage) (userId productId : Nat) : Bool :=
  s.wishlists.any (fun w => w.userId == userId && w.productId == productId)

/-- `MemStorage.addToWishlist(wishlist)`. -/
def addToWishlist (s : MemStorage) (userId productId now : Nat) : WishlistEntry × MemStorage :=
  let id := s.currentWishlistId
  let w : WishlistEntry := ⟨id, userId, productId, now⟩
  (w, ⟨s.products, setByKey WishlistEntry.id s.wishlists w, s.currentProductId, id + 1⟩)

/-- `MemStorage.removeFromWishlist(userId, productId)`: find the first
matching entry; report `false` when absent, otherwise `Map.delete` it by id. -/
def removeFromWishlist (s : MemStorage) (userId productId : Nat) : Bool × MemStorage :=
  match s.wishlists.find? (fun w => w.userId == userId && w.productId == productId) with
  | none => (false, s)
  | some w =>
    let d := deleteByKey WishlistEntry.id s.wishlists w.id
    (d.1, ⟨s.products, d.2, s.currentProductId, s.currentWishlistId⟩)

/-- The `.map` body of `MemStorage.getWishlistByUser`: pair each entry with
`products.get(entry.productId)`, throwing when the product is missing. -/
def joinWishlist (ps : List Product) : List WishlistEntry → Except String (List (WishlistEntry × Product))
  | [] => .ok []
  | w :: ws =>
    match ps.find? (fun p => p.id == w.productId) with
    | none => .error "Product not found for wishlist item"
    | some p =>
      match joinWishlist ps ws with
      | .error e => .error e
      | .ok rest => .ok ((w, p) :: rest)

/-- `MemStorage.getWishlistByUser(userId)`. -/
def getWishlistByUser (s : MemStorage) (userId : Nat) : Except String (List (WishlistEntry × Product)) :=
  joinWishlist s.products (s.wishlists.filter (fun w => w.userId == userId))

/-- The `forEach`/`Set.add` collection step shared by the distinct-value
operations: fold the products, adding each truthy projection to the set. -/
def collectTruthy (proj : Product → String) (ps : List Product) : List String :=
  ps.foldl (fun acc p => if !(proj p == "") then insertUnique acc (proj p) else acc) []

/-- `MemStorage.getCategories()`: distinct non-empty categories in first
occurrence order (not sorted). -/
def getCategories (s : MemStorage) : List String :=
  collectTruthy (fun p => p.category) s.products

/-- `MemStorage.getFinishes()`. -/
def getFinishes (s : MemStorage) : List String :=
  collectTruthy (fun p => p.finish) s.products

/-- `MemStorage.getMaterials()`. -/
def getMaterials (s : MemStorage) : List String :=
  collectTruthy (fun p => p.material) s.products

/-- `MemStorage.getAvailableCategories({finish?, material?})`. -/
def getAvailableCategories (s : MemStorage) (finish material : Option String) : List String :=
  let ps := s.products
  let ps := if truthy finish then ps.filter (fun p => p.finish == finish.getD "") else ps
  let ps := if truthy material then ps.filter (fun p => p.material == material.getD "") else ps
  stableSort strLe (collectTruthy (fun p => p.category) ps)

/-- `MemStorage.getAvailableFinishes({category?, material?})`. -/
def getAvailableFinishes (s : MemStorage) (category material : Option String) : List String :=
  let ps := s.products
  let ps := if truthy category then ps.filter (fun p => p.category == category.getD "") else ps
  let ps := if truthy material then ps.filter (fun p => p.material == material.getD "") else ps
  stableSort strLe (collectTruthy (fun p => p.finish) ps)

/-- `MemStorage.getAvailableMaterials({category?, finish?})`. -/
def getAvailableMaterials (s : MemStorage) (category finish : Option String) : List String :=
  let ps := s.products
  let ps := if truthy category then ps.filter (fun p => p.category == category.getD "") else ps
  let ps := if truthy finish then ps.filter (fun p => p.finish == finish.getD "") else ps
  stableSort strLe (collectTruthy (fun p => p.material) ps)

/-- The route-level `"all"` sentinel normalisation
(`v === "all" ? undefined : v`). -/
def normAll : Option String → Option String
  | none => none
  | some s => if s == "all" then none else some s

/-- The paginated response envelope of `GET /api/products`. -/
structure ListingResponse where
  products : List Product
  page : JSInt
  limit : JSInt
  total : Nat
  totalPages : JSCeil
deriving DecidableEq

/-- The body of the `GET /api/products` handler after `parseInt` of the
`page`/`limit` parameters: compute `offset = (page - 1) * limit`, pick
search mode when `search` is truthy (ignoring the facet and sort
parameters), otherwise structured-filter mode with `"all"` normalised away,
and assemble the envelope with `totalPages = Math.ceil(total / limit)`. -/
def listProductsCore (s : MemStorage) (search category finish material sortBy : Option String)
    (pageNum limitNum : JSInt) : ListingResponse :=
  let offset := jsMul (jsSub pageNum (.int 1)) limitNum
  if truthy search then
    let prods := searchProducts s (search.getD "") (some limitNum) (some offset)
    let total := getSearchCount s (search.getD "")
    ⟨prods, pageNum, limitNum, total, jsCeilDiv total limitNum⟩
  else
    let prods := filterProducts s
      ⟨normAll category, normAll finish, normAll material, sortBy, some limitNum, some offset⟩
    let total := getFilterCount s (normAll category) (normAll finish) (normAll material)
    ⟨prods, pageNum, limitNum, total, jsCeilDiv total limitNum⟩

/-- The raw query string of a `GET /api/products` request; `none` is an
absent parameter. -/
structure ListQuery where
  search : Option String
  category : Option String
  finish : Option String
  material : Option String
  sortBy : Option String
  page : Option String
  limit : Option String
deriving DecidableEq

/-- `GET /api/products`: destructure with the string defaults
`page = "1"`, `limit = "50"` (applied only when the parameter is absent),
`parseInt` both, and run the handler body. -/
def listProducts (s : MemStorage) (q : ListQuery) : ListingResponse :=
  listProductsCore s q.search q.category q.finish q.material q.sortBy
    (parseIntJS (q.page.getD "1")) (parseIntJS (q.limit.getD "50"))

/-- Response of `POST /api/wishlist`: an error status with message, or the
created association. -/
inductive WishlistAddResponse where
  | err : Nat → String → WishlistAddResponse
  | ok : WishlistEntry → WishlistAddResponse
deriving DecidableEq

/-- The authenticated body of `POST /api/wishlist`: check `isInWishlist`
first and answer HTTP 400 with "Product already in wishlist" on a
duplicate, otherwise `addToWishlist`. -/
def postWishlist (s : MemStorage) (userId productId now : Nat) : WishlistAddResponse × MemStorage :=
  if isInWishlist s userId productId then
    (.err 400 "Product already in wishlist", s)
  else
    let r := addToWishlist s userId productId now
    (.ok r.1, r.2)

/-- First-occurrence deduplication with an explicit list of already-seen
values (kept structural so that it evaluates in the kernel). -/
def dedupFirstAux (seen : List String) : List String → List String
  | [] => []
  | x :: xs =>
    if seen.contains x then dedupFirstAux seen xs
    else x :: dedupFirstAux (x :: seen) xs

/-- First-occurrence deduplication. -/
def dedupFirst (l : List String) : List String := dedupFirstAux [] l

/-- Does the value `v` of a facet satisfy the optional constraint `o`?  Per
the spec an unset facet means "no constraint from that facet", and the data
model stipulates that the empty string and absence are not distinguished,
so an empty-string constraint is also unconstrained. -/
def specMatchesConstraint (o : Option String) (v : String) : Bool :=
  if truthy o then v == o.getD "" else true

/-- The facet-narrowing algorithm as worded by the spec: filter the full
product set by the conjunction of the supplied other-facet constraints,
project onto the target facet, drop empty values, deduplicate, and sort
ascending.  Stated against the source-translated `getAvailable*` functions
in the facet-narrowing theorem. -/
def specAvailableValues (ps : List Product) (cat fin mat : Option String)
    (proj : Product → String) : List String :=
  stableSort strLe (dedupFirst
    (((ps.filter (fun p =>
        specMatchesConstraint cat p.category &&
        specMatchesConstraint fin p.finish &&
        specMatchesConstraint mat p.material)).map proj).filter (fun v => !(v == ""))))

/-- A store with no products or wishlist entries and the counters at their
initial value. -/
def emptyStore : MemStorage := ⟨[], [], 1, 1⟩

/-- Shorthand for building a product. -/
def mkProduct (id : Nat) (name code category finish material : String) (createdAt : Nat) : Product :=
  ⟨id, name, code, category, finish, material, createdAt⟩

/-- The three-product store of the facet-narrowing example:
A has category X and finish F1, B category Y and finish F1, C category X
and finish F2. -/
def facetStore : MemStorage :=
  ⟨[mkProduct 1 "A" "A-1" "X" "F1" "M" 0,
    mkProduct 2 "B" "B-1" "Y" "F1" "M" 0,
    mkProduct 3 "C" "C-1" "X" "F2" "M" 0], [], 4, 1⟩

/-- An eight-product store for the pagination boundary example. -/
def eightStore : MemStorage :=
  ⟨[mkProduct 1 "p1" "c1" "Cat" "F" "M" 0,
    mkProduct 2 "p2" "c2" "Cat" "F" "M" 0,
    mkProduct 3 "p3" "c3" "Cat" "F" "M" 0,
    mkProduct 4 "p4" "c4" "Cat" "F" "M" 0,
    mkProduct 5 "p5" "c5" "Cat" "F" "M" 0,
    mkProduct 6 "p6" "c6" "Cat" "F" "M" 0,
    mkProduct 7 "p7" "c7" "Cat" "F" "M" 0,
    mkProduct 8 "p8" "c8" "Cat" "F" "M" 0], [], 9, 1⟩

/-- A store with products whose categories are not in sorted order. -/
def unsortedStore : MemStorage :=
  ⟨[mkProduct 1 "n1" "c1" "Tables" "F" "M" 0,
    mkProduct 2 "n2" "c2" "Chairs" "F" "M" 0], [], 3, 1⟩

/-- A two-product store used for the search-mode example: one brass item
and one table. -/
def brassStore : MemStorage :=
  ⟨[mkProduct 1 "Brass Bowl" "VF-BB-1" "Decor" "Polished Brass" "Brass" 0,
    mkProduct 2 "Side Table" "VF-ST-2" "Tables" "Oak" "Wood" 0], [], 3, 1⟩

/-! Helper lemmas about the stable sort. -/

theorem length_insertStable (le : α → α → Bool) (x : α) (l : List α) :
    (insertStable le x l).length = l.length + 1 := by
  induction l with
  | nil => rfl
  | cons y ys ih =>
    simp only [insertStable]
    split <;> simp [ih]

theorem perm_insertStable (le : α → α → Bool) (x : α) (l : List α) :
    (insertStable le x l).Perm (x :: l) := by
  induction l with
  | nil => exact List.Perm.refl _
  | cons y ys ih =>
    simp only [insertStable]
    split
    · exact (ih.cons y).trans (List.Perm.swap x y ys)
    · exact List.Perm.refl _

theorem perm_stableSort_aux (le : α → α → Bool) :
    ∀ (l acc : List α), (l.foldl (fun acc x => insertStable le x acc) acc).Perm (acc ++ l) := by
  intro l
  induction l with
  | nil => intro acc; simp
  | cons x xs ih =>
    intro acc
    refine (ih (insertStable le x acc)).trans ?_
    have h1 : (insertStable le x acc ++ xs).Perm ((x :: acc) ++ xs) :=
      (perm_insertStable le x acc).append_right xs
    exact h1.trans List.perm_middle.symm

theorem perm_stableSort (le : α → α → Bool) (l : List α) : (stableSort le l).Perm l :=
  perm_stableSort_aux le l []

theorem length_stableSort (le : α → α → Bool) (l : List α) :
    (stableSort le l).length = l.length :=
  (perm_stableSort le l).length_eq

theorem mem_stableSort (le : α → α → Bool) (l : List α) (a : α) :
    a ∈ stableSort le l ↔ a ∈ l :=
  (perm_stableSort le l).mem_iff

theorem mem_insertStable (le : α → α → Bool) (x : α) (l : List α) (a : α) :
    a ∈ insertStable le x l ↔ a = x ∨ a ∈ l :=
  by simpa using (perm_insertStable le x l).mem_iff

theorem pairwise_insertStable (le : α → α → Bool)
    (htrans : ∀ a b c, le a b = true → le b c = true → le a c = true)
    (htotal : ∀ a b, le a b = true ∨ le b a = true)
    (x : α) (l : List α) (h : l.Pairwise (fun a b => le a b = true)) :
    (insertStable le x l).Pairwise (fun a b => le a b = true) := by
  induction l with
  | nil => simp [insertStable]
  | cons y ys ih =>
    rw [List.pairwise_cons] at h
    obtain ⟨hy, hys⟩ := h
    simp only [insertStable]
    split
    · rename_i hcase
      rw [List.pairwise_cons]
      refine ⟨?_, ih hys⟩
      intro z hz
      rcases (mem_insertStable le x ys z).mp hz with rfl | hzys
      · exact hcase
      · exact hy z hzys
    · rename_i hcase
      have hxy : le x y = true := by
        rcases htotal x y with h' | h'
        · exact h'
        · exact absurd h' hcase
      rw [List.pairwise_cons]
      constructor
      · intro z hz
        rcases List.mem_cons.mp hz with rfl | hzys
        · exact hxy
        · exact htrans x y z hxy (hy z hzys)
      · exact List.Pairwise.cons hy hys

theorem pairwise_stableSort_aux (le : α → α → Bool)
    (htrans : ∀ a b c, le a b = true → le b c = true → le a c = true)
    (htotal : ∀ a b, le a b = true ∨ le b a = true) :
    ∀ (l acc : List α), acc.Pairwise (fun a b => le a b = true) →
      (l.foldl (fun acc x => insertStable le x acc) acc).Pairwise (fun a b => le a b = true) := by
  intro l
  induction l with
  | nil => intro acc h; exact h
  | cons x xs ih =>
    intro acc h
    exact ih (insertStable le x acc) (pairwise_insertStable le htrans htotal x acc h)

theorem pairwise_stableSort (le : α → α → Bool)
    (htrans : ∀ a b c, le a b = true → le b c = true → le a c = true)
    (htotal : ∀ a b, le a b = true ∨ le b a = true) (l : List α) :
    (stableSort le l).Pairwise (fun a b => le a b = true) :=
  pairwise_stableSort_aux le htrans htotal l [] List.Pairwise.nil

/-! Helper lemmas about the string order. -/

theorem lexLe_trans : ∀ a b c : List Char, lexLe a b = true → lexLe b c = true → lexLe a c = true := by
  intro a
  induction a with
  | nil => intro b c _ _; rfl
  | cons x xs ih =>
    intro b c hab hbc
    cases b with
    | nil => simp [lexLe] at hab
    | cons y ys =>
      cases c with
      | nil => simp [lexLe] at hbc
      | cons z zs =>
        simp only [lexLe] at hab hbc ⊢
        split at hab
        · rename_i hxy
          split at hbc
          · rename_i hyz
            have : x.toNat < z.toNat := Nat.lt_trans hxy hyz
            simp [this]
          · split at hbc
            · simp at hbc
            · rename_i hyz hzy
              have hyz' : y.toNat = z.toNat := by omega
              have : x.toNat < z.toNat := by omega
              simp [this]
        · split at hab
          · simp at hab
          · rename_i hxy hyx
            have hxy' : x.toNat = y.toNat := by omega
            split at hbc
            · rename_i hyz
              have : x.toNat < z.toNat := by omega
              simp [this]
            · split at hbc
              · simp at hbc
              · rename_i hyz hzy
                have h1 : ¬ x.toNat < z.toNat := by omega
                have h2 : ¬ z.toNat < x.toNat := by omega
                simp only [h1, h2, if_false]
                exact ih ys zs hab hbc

theorem lexLe_total : ∀ a b : List Char, lexLe a b = true ∨ lexLe b a = true := by
  intro a
  induction a with
  | nil => intro b; left; rfl
  | cons x xs ih =>
    intro b
    cases b with
    | nil => right; rfl
    | cons y ys =>
      simp only [lexLe]
      rcases Nat.lt_trichotomy x.toNat y.toNat with h | h | h
      · left; simp [h]
      · have h1 : ¬ x.toNat < y.toNat := by omega
        have h2 : ¬ y.toNat < x.toNat := by omega
        simp only [h1, h2, if_false]
        exact ih ys
      · right; simp [h]

theorem strLe_trans : ∀ a b c : String, strLe a b = true → strLe b c = true → strLe a c = true :=
  fun a b c => lexLe_trans a.data b.data c.data

theorem strLe_total : ∀ a b : String, strLe a b = true ∨ strLe b a = true :=
  fun a b => lexLe_total a.data b.data

/-! Helper lemmas about the JS slice model. -/

theorem jsSliceFrom_natCast (l : List α) (o : Nat) : jsSliceFrom l (.int o) = l.drop o := by
  simp only [jsSliceFrom, jsIndex]
  have h1 : ¬ ((o : Int) < 0) := by omega
  simp only [h1, if_false, Int.toNat_natCast]
  rcases Nat.le_total o l.length with h | h
  · rw [Nat.min_eq_left h]
  · rw [Nat.min_eq_right h, List.drop_eq_nil_of_le (Nat.le_refl _),
      List.drop_eq_nil_of_le h]

theorem jsSliceTo_natCast (l : List α) (k : Nat) : jsSliceTo l (.int k) = l.take k := by
  simp only [jsSliceTo, jsIndex]
  have h1 : ¬ ((k : Int) < 0) := by omega
  simp only [h1, if_false, Int.toNat_natCast]
  rcases Nat.le_total k l.length with h | h
  · rw [Nat.min_eq_left h]
  · rw [Nat.min_eq_right h, List.take_length, List.take_of_length_le h]

theorem jsSliceFrom_nan (l : List α) : jsSliceFrom l .nan = l := rfl

theorem jsSliceTo_nan (l : List α) : jsSliceTo l .nan = [] := by
  simp [jsSliceTo, jsIndex]

theorem jsSliceFrom_zero (l : List α) : jsSliceFrom l (.int 0) = l := by
  simpa using jsSliceFrom_natCast l 0

/-! Helper lemmas relating the `Set`-based collection step to
first-occurrence deduplication. -/

theorem dedupFirstAux_congr :
    ∀ (l s1 s2 : List String), (∀ y, s1.contains y = s2.contains y) →
      dedupFirstAux s1 l = dedupFirstAux s2 l := by
  intro l
  induction l with
  | nil => intro s1 s2 _; rfl
  | cons x xs ih =>
    intro s1 s2 h
    simp only [dedupFirstAux, h x]
    split
    · exact ih s1 s2 h
    · rw [ih (x :: s1) (x :: s2) ?_]
      intro y
      simp only [List.contains_cons, h y]

theorem contains_append_singleton (acc : List String) (x y : String) :
    (acc ++ [x]).contains y = (x :: acc).contains y := by
  induction acc with
  | nil => rfl
  | cons a as ih =>
    simp only [List.cons_append, List.contains_cons, ih, Bool.or_left_comm]

theorem foldl_insertUnique :
    ∀ (l acc : List String), l.foldl insertUnique acc = acc ++ dedupFirstAux acc l := by
  intro l
  induction l with
  | nil => intro acc; simp [dedupFirstAux]
  | cons x xs ih =>
    intro acc
    simp only [List.foldl_cons, insertUnique, dedupFirstAux]
    by_cases h : acc.contains x
    · simp only [h, if_true, ih acc]
    · simp only [h, if_false, Bool.false_eq_true, ih (acc ++ [x])]
      rw [dedupFirstAux_congr xs (acc ++ [x]) (x :: acc)
        (fun y => contains_append_singleton acc x y)]
      simp

theorem collectTruthy_foldl (proj : Product → String) :
    ∀ (ps : List Product) (acc : List String),
      ps.foldl (fun acc p => if !(proj p == "") then insertUnique acc (proj p) else acc) acc
        = ((ps.map proj).filter (fun v => !(v == ""))).foldl insertUnique acc := by
  intro ps
  induction ps with
  | nil => intro acc; rfl
  | cons p ps ih =>
    intro acc
    rw [List.foldl_cons, List.map_cons]
    by_cases h : (proj p == "") = true
    · rw [if_neg (by simp [h]), List.filter_cons_of_neg (by simp [h]), ih]
    · rw [if_pos (by simp [h]), List.filter_cons_of_pos (by simp [h]),
        List.foldl_cons, ih]

theorem collectTruthy_eq (proj : Product → String) (ps : List Product) :
    collectTruthy proj ps = dedupFirst ((ps.map proj).filter (fun v => !(v == ""))) := by
  simp only [collectTruthy, dedupFirst]
  rw [collectTruthy_foldl, foldl_insertUnique]
  simp

/-! Helper lemmas about the facet constraint filters. -/

theorem specMatchesConstraint_none (v : String) : specMatchesConstraint none v = true := rfl

theorem applyConstraints_eq (ps : List Product) (c1 c2 : Option String)
    (f1 f2 : Product → String) :
    (if truthy c2 then
        (if truthy c1 then ps.filter (fun p => f1 p == c1.getD "") else ps).filter
          (fun p => f2 p == c2.getD "")
      else (if truthy c1 then ps.filter (fun p => f1 p == c1.getD "") else ps))
    = ps.filter (fun p => specMatchesConstraint c1 (f1 p) && specMatchesConstraint c2 (f2 p)) := by
  cases h1 : truthy c1 <;> cases h2 : truthy c2 <;>
    simp [specMatchesConstraint, h1, h2, List.filter_filter, Bool.and_comm]

/-! Helper lemmas about the sort switch, the counts and pagination. -/

theorem length_sortFiltered (sortBy : Option String) (ps : List Product) :
    (sortFiltered sortBy ps).length = ps.length := by
  cases sortBy with
  | none => exact length_stableSort _ _
  | some s =>
    simp only [sortFiltered]
    split
    · exact length_stableSort _ _
    · split
      · exact length_stableSort _ _
      · split
        · exact length_stableSort _ _
        · exact length_stableSort _ _

theorem getFilterCount_eq (s : MemStorage) (c f m : Option String) (sortBy : Option String) :
    getFilterCount s c f m = (filterProducts s ⟨c, f, m, sortBy, none, none⟩).length := by
  simp only [getFilterCount, filterProducts]
  rw [length_sortFiltered]

theorem filterProducts_paginate (s : MemStorage) (c f m sortBy : Option String) (o k : Nat) :
    filterProducts s ⟨c, f, m, sortBy, some (.int k), some (.int o)⟩
      = ((filterProducts s ⟨c, f, m, sortBy, none, none⟩).drop o).take k := by
  simp only [filterProducts]
  rw [jsSliceFrom_natCast, jsSliceTo_natCast]

theorem searchProducts_paginate (s : MemStorage) (q : String) (o k : Nat) :
    searchProducts s q (some (.int k)) (some (.int o))
      = ((searchProducts s q none none).drop o).take k := by
  simp only [searchProducts]
  rw [jsSliceFrom_natCast, jsSliceTo_natCast]

theorem getSearchCount_eq (s : MemStorage) (q : String) :
    getSearchCount s q = (searchProducts s q none none).length := rfl

theorem jsCeilDiv_pos (total l : Nat) (h : 1 ≤ l) :
    jsCeilDiv total (.int l) = .fin ((total + l - 1) / l : Nat) := by
  simp only [jsCeilDiv]
  have h0 : ¬ ((l : Int) = 0) := by omega
  have h1 : (0 : Int) < l := by omega
  simp [h0, h1]

theorem offset_int (p l : Nat) (hp : 1 ≤ p) :
    jsMul (jsSub (.int p) (.int 1)) (.int l) = .int ((p - 1) * l : Nat) := by
  simp only [jsMul, jsSub, JSInt.int.injEq]
  rw [Nat.cast_mul, Nat.cast_sub hp]
  simp

/-- Sortedness in the ascending string order of the facet-value sort. -/
def sortedStr (l : List String) : Prop := l.Pairwise (fun a b => strLe a b = true)

/-- Claim C1: facet narrowing.  Each `getAvailable*` operation returns
exactly the spec's `availableValues`: filter the full product set by the
conjunction of the supplied other-facet constraints, project onto the
target facet, drop empty values, deduplicate, and sort ascending; and on
the example products {A: cat X finish F1, B: cat Y finish F1, C: cat X
finish F2}, the categories available under finish F1 are {X, Y} and under
finish F2 are {X}. -/
theorem facet_narrowing :
    (∀ (s : MemStorage) (fi ma : Option String),
        getAvailableCategories s fi ma
          = specAvailableValues s.products none fi ma (fun p => p.category))
    ∧ (∀ (s : MemStorage) (ca ma : Option String),
        getAvailableFinishes s ca ma
          = specAvailableValues s.products ca none ma (fun p => p.finish))
    ∧ (∀ (s : MemStorage) (ca fi : Option String),
        getAvailableMaterials s ca fi
          = specAvailableValues s.products ca fi none (fun p => p.material))
    ∧ getAvailableCategories facetStore (some "F1") none = ["X", "Y"]
    ∧ getAvailableCategories facetStore (some "F2") none = ["X"] := by
  refine ⟨?_, ?_, ?_, by decide, by decide⟩
  · intro s fi ma
    simp only [getAvailableCategories, specAvailableValues, collectTruthy_eq]
    rw [applyConstraints_eq]
    simp only [specMatchesConstraint_none, Bool.true_and, Bool.and_true]
  · intro s ca ma
    simp only [getAvailableFinishes, specAvailableValues, collectTruthy_eq]
    rw [applyConstraints_eq]
    simp only [specMatchesConstraint_none, Bool.true_and, Bool.and_true]
  · intro s ca fi
    simp only [getAvailableMaterials, specAvailableValues, collectTruthy_eq]
    rw [applyConstraints_eq]
    simp only [specMatchesConstraint_none, Bool.true_and, Bool.and_true]

/-- Claim C2: count/listing consistency.  For every store state, the count
operations agree with the length of the corresponding unpaginated listing
(no limit, offset 0), for both the structured-filter predicate and the
free-text search predicate, whatever the sort key. -/
theorem count_listing_consistency :
    ∀ (s : MemStorage) (ca fi ma sortBy : Option String) (q : String),
      getFilterCount s ca fi ma
          = (filterProducts s ⟨ca, fi, ma, sortBy, none, some (.int 0)⟩).length
        ∧ getSearchCount s q = (searchProducts s q none (some (.int 0))).length := by
  intro s ca fi ma sortBy q
  constructor
  · rw [getFilterCount_eq s ca fi ma sortBy]
    simp only [filterProducts]
    rw [jsSliceFrom_zero]
  · simp only [getSearchCount, searchProducts]
    rw [jsSliceFrom_zero]

/-- Claim C5: with no other-facet constraints supplied, each
`getAvailable*` operation returns, as a set, the same values as the global
distinct-value operation for that facet, and its result is sorted
ascending; the global operations themselves do not sort (witnessed by a
store whose first-occurrence category order is out of order). -/
theorem unconstrained_facets :
    (∀ s : MemStorage,
        (∀ x, x ∈ getAvailableCategories s none none ↔ x ∈ getCategories s)
        ∧ sortedStr (getAvailableCategories s none none)
        ∧ (∀ x, x ∈ getAvailableFinishes s none none ↔ x ∈ getFinishes s)
        ∧ sortedStr (getAvailableFinishes s none none)
        ∧ (∀ x, x ∈ getAvailableMaterials s none none ↔ x ∈ getMaterials s)
        ∧ sortedStr (getAvailableMaterials s none none))
    ∧ (∃ s : MemStorage, ¬ sortedStr (getCategories s)) := by
  constructor
  · intro s
    have hc : getAvailableCategories s none none = stableSort strLe (getCategories s) := rfl
    have hf : getAvailableFinishes s none none = stableSort strLe (getFinishes s) := rfl
    have hm : getAvailableMaterials s none none = stableSort strLe (getMaterials s) := rfl
    refine ⟨?_, ?_, ?_, ?_, ?_, ?_⟩
    · intro x; rw [hc]; exact mem_stableSort _ _ _
    · rw [hc]; exact pairwise_stableSort _ strLe_trans strLe_total _
    · intro x; rw [hf]; exact mem_stableSort _ _ _
    · rw [hf]; exact pairwise_stableSort _ strLe_trans strLe_total _
    · intro x; rw [hm]; exact mem_stableSort _ _ _
    · rw [hm]; exact pairwise_stableSort _ strLe_trans strLe_total _
  · refine ⟨unsortedStore, ?_⟩
    unfold sortedStr
    decide

/-- The unpaginated listing underlying a request: the same mode selection
and predicate as the route, with no limit and no offset. -/
def fullListing (s : MemStorage) (search category finish material sortBy : Option String) :
    List Product :=
  if truthy search then searchProducts s (search.getD "") none none
  else filterProducts s ⟨normAll category, normAll finish, normAll material, sortBy, none, none⟩

/-- The pagination postconditions of a listing request with numeric
1-indexed page `p` and limit `l`: the items are the
`offset = (p - 1) * l` slice of the unpaginated listing, at most `l` items
are returned, `total` is the unpaginated match count and is independent of
the page, `totalPages` is the ceiling of `total / l`, and a page beyond the
last yields an empty item list. -/
def paginationOk (s : MemStorage) (se ca fi ma so : Option String) (p l : Nat) : Prop :=
  (listProductsCore s se ca fi ma so (.int p) (.int l)).products
      = ((fullListing s se ca fi ma so).drop ((p - 1) * l)).take l
  ∧ (listProductsCore s se ca fi ma so (.int p) (.int l)).products.length ≤ l
  ∧ (listProductsCore s se ca fi ma so (.int p) (.int l)).total
      = (fullListing s se ca fi ma so).length
  ∧ (listProductsCore s se ca fi ma so (.int p) (.int l)).totalPages
      = .fin (((listProductsCore s se ca fi ma so (.int p) (.int l)).total + l - 1) / l : Nat)
  ∧ (listProductsCore s se ca fi ma so (.int p) (.int l)).total
      = (listProductsCore s se ca fi ma so (.int 1) (.int l)).total
  ∧ ((fullListing s se ca fi ma so).length ≤ (p - 1) * l →
      (listProductsCore s se ca fi ma so (.int p) (.int l)).products = [])

/-- Claim C3: pagination postconditions of the listing route, for every
store state, every request, and every numeric page `p ≥ 1` and
limit `l ≥ 1`. -/
theorem pagination_postconditions :
    ∀ (s : MemStorage) (se ca fi ma so : Option String) (p l : Nat),
      1 ≤ p → 1 ≤ l → paginationOk s se ca fi ma so p l := by
  intro s se ca fi ma so p l hp hl
  have hprod : (listProductsCore s se ca fi ma so (.int p) (.int l)).products
      = ((fullListing s se ca fi ma so).drop ((p - 1) * l)).take l := by
    cases h : truthy se with
    | true =>
      simp only [listProductsCore, fullListing, h, if_true]
      rw [offset_int p l hp, searchProducts_paginate]
    | false =>
      simp only [listProductsCore, fullListing, h, Bool.false_eq_true, if_false]
      rw [offset_int p l hp, filterProducts_paginate]
  have htotal : (listProductsCore s se ca fi ma so (.int p) (.int l)).total
      = (fullListing s se ca fi ma so).length := by
    cases h : truthy se with
    | true =>
      simp only [listProductsCore, fullListing, h, if_true]
      exact getSearchCount_eq s (se.getD "")
    | false =>
      simp only [listProductsCore, fullListing, h, Bool.false_eq_true, if_false]
      exact getFilterCount_eq s (normAll ca) (normAll fi) (normAll ma) so
  have htp : (listProductsCore s se ca fi ma so (.int p) (.int l)).totalPages
      = jsCeilDiv (listProductsCore s se ca fi ma so (.int p) (.int l)).total (.int l) := by
    cases h : truthy se with
    | true => simp only [listProductsCore, h, if_true]
    | false => simp only [listProductsCore, h, Bool.false_eq_true, if_false]
  have htot5 : (listProductsCore s se ca fi ma so (.int p) (.int l)).total
      = (listProductsCore s se ca fi ma so (.int 1) (.int l)).total := by
    cases h : truthy se with
    | true => simp only [listProductsCore, h, if_true]
    | false => simp only [listProductsCore, h, Bool.false_eq_true, if_false]
  refine ⟨hprod, ?_, htotal, ?_, htot5, ?_⟩
  · rw [hprod, List.length_take]
    exact Nat.min_le_left _ _
  · rw [htp, jsCeilDiv_pos _ l hl]
  · intro hbey
    rw [hprod, List.drop_eq_nil_of_le hbey, List.take_nil]

/-- Witness for the pagination postconditions: the eight-product store with
limit 5; page 2 yields 3 items and `totalPages = 2`, page 3 yields an empty
list with `total` still 8. -/
theorem pagination_postconditions_witness :
    paginationOk eightStore none none none none none 2 5
    ∧ (listProductsCore eightStore none none none none none (.int 2) (.int 5)).products.length = 3
    ∧ (listProductsCore eightStore none none none none none (.int 2) (.int 5)).totalPages = .fin 2
    ∧ (listProductsCore eightStore none none none none none (.int 3) (.int 5)).products = []
    ∧ (listProductsCore eightStore none none none none none (.int 3) (.int 5)).total = 8 :=
  ⟨pagination_postconditions eightStore none none none none none 2 5 (by decide) (by decide),
   by decide, by decide, by decide, by decide⟩

theorem jsMul_nan_right (x : JSInt) : jsMul x .nan = .nan := by cases x <;> rfl

theorem jsMul_nan_left (y : JSInt) : jsMul .nan y = .nan := rfl

theorem jsSub_nan_left (y : JSInt) : jsSub .nan y = .nan := rfl

theorem sortFiltered_default (so : Option String)
    (h1 : ¬ so = some "code") (h2 : ¬ so = some "category") (h3 : ¬ so = some "newest") :
    ∀ ps, sortFiltered so ps = sortFiltered none ps := by
  intro ps
  cases so with
  | none => rfl
  | some str =>
    have e1 : (str == "code") = false := by
      simp only [Option.some.injEq] at h1; simpa using h1
    have e2 : (str == "category") = false := by
      simp only [Option.some.injEq] at h2; simpa using h2
    have e3 : (str == "newest") = false := by
      simp only [Option.some.injEq] at h3; simpa using h3
    simp [sortFiltered, e1, e2, e3]

/-- Claim C4 (amended): an unrecognised `sortBy` falls back to the default
name-ascending ordering; but a non-numeric `page` or `limit` parameter does
not behave as the defaults: `parseInt` yields `NaN`, a `NaN` limit makes
the returned items empty with `totalPages` `NaN` (the total is still that
of the default request), and a `NaN` page returns the same items as page 1
while reporting the `NaN` page in the envelope. -/
theorem malformed_input_fallback :
    ∀ (s : MemStorage) (ca fi ma so se : Option String) (lim off : Option JSInt) (pg lv : JSInt),
      ¬ so = some "code" → ¬ so = some "category" → ¬ so = some "newest" →
      filterProducts s ⟨ca, fi, ma, so, lim, off⟩
          = filterProducts s ⟨ca, fi, ma, none, lim, off⟩
        ∧ (listProductsCore s se ca fi ma so pg .nan).products = []
        ∧ (listProductsCore s se ca fi ma so pg .nan).totalPages = .nan
        ∧ (listProductsCore s se ca fi ma so pg .nan).total
          = (listProductsCore s se ca fi ma so (.int 1) (.int 50)).total
        ∧ (listProductsCore s se ca fi ma so .nan lv).products
          = (listProductsCore s se ca fi ma so (.int 1) lv).products
        ∧ (listProductsCore s se ca fi ma so .nan lv).page = .nan := by
  intro s ca fi ma so se lim off pg lv h1 h2 h3
  refine ⟨?_, ?_, ?_, ?_, ?_, ?_⟩
  · simp only [filterProducts]
    rw [sortFiltered_default so h1 h2 h3]
  · cases h : truthy se with
    | true =>
      simp only [listProductsCore, h, if_true, jsMul_nan_right, searchProducts, jsSliceTo_nan]
    | false =>
      simp only [listProductsCore, h, Bool.false_eq_true, if_false, jsMul_nan_right,
        filterProducts, jsSliceTo_nan]
  · cases h : truthy se with
    | true => simp only [listProductsCore, h, if_true, jsCeilDiv]
    | false => simp only [listProductsCore, h, Bool.false_eq_true, if_false, jsCeilDiv]
  · cases h : truthy se with
    | true => simp only [listProductsCore, h, if_true]
    | false => simp only [listProductsCore, h, Bool.false_eq_true, if_false]
  · cases hlv : lv with
    | nan =>
      cases h : truthy se with
      | true => simp only [listProductsCore, h, if_true, jsSub_nan_left, jsMul_nan_left,
          jsMul_nan_right]
      | false => simp only [listProductsCore, h, Bool.false_eq_true, if_false, jsSub_nan_left,
          jsMul_nan_left, jsMul_nan_right]
    | int w =>
      have hza : jsMul (jsSub (.int 1) (.int 1)) (.int w) = .int 0 := by
        simp [jsMul, jsSub]
      cases h : truthy se with
      | true =>
        simp only [listProductsCore, h, if_true, jsSub_nan_left, jsMul_nan_left, hza,
          searchProducts, jsSliceFrom_nan, jsSliceFrom_zero]
      | false =>
        simp only [listProductsCore, h, Bool.false_eq_true, if_false, jsSub_nan_left,
          jsMul_nan_left, hza, filterProducts, jsSliceFrom_nan, jsSliceFrom_zero]
  · cases h : truthy se with
    | true => simp only [listProductsCore, h, if_true]
    | false => simp only [listProductsCore, h, Bool.false_eq_true, if_false]

/-- Witness for the malformed-input behaviour at a concrete store and an
unrecognised sort key. -/
theorem malformed_input_fallback_witness :
    filterProducts brassStore ⟨none, none, none, some "bogus", none, none⟩
        = filterProducts brassStore ⟨none, none, none, none, none, none⟩
      ∧ (listProductsCore brassStore none none none none (some "bogus") (.int 1) .nan).products = []
      ∧ (listProductsCore brassStore none none none none (some "bogus") (.int 1) .nan).totalPages = .nan
      ∧ (listProductsCore brassStore none none none none (some "bogus") (.int 1) .nan).total
        = (listProductsCore brassStore none none none none (some "bogus") (.int 1) (.int 50)).total
      ∧ (listProductsCore brassStore none none none none (some "bogus") .nan (.int 50)).products
        = (listProductsCore brassStore none none none none (some "bogus") (.int 1) (.int 50)).products
      ∧ (listProductsCore brassStore none none none none (some "bogus") .nan (.int 50)).page = .nan :=
  malformed_input_fallback brassStore none none none (some "bogus") none none none (.int 1) (.int 50)
    (by decide) (by decide) (by decide)

/-- Counterexample to claim C4 as stated: on a two-product store, a request
whose `limit` parameter is the non-numeric string "abc" returns an empty
item list, not the items of the default `limit=50` request, and a request
whose `page` parameter is non-numeric reports a different pagination
envelope (`page` is `NaN`, not 1). -/
theorem malformed_input_counterexample :
    (listProducts brassStore ⟨none, none, none, none, none, none, some "abc"⟩).products = []
    ∧ (listProducts brassStore ⟨none, none, none, none, none, none, none⟩).products.length = 2
    ∧ ¬ ((listProducts brassStore ⟨none, none, none, none, none, none, some "abc"⟩).products
        = (listProducts brassStore ⟨none, none, none, none, none, none, none⟩).products)
    ∧ ¬ ((listProducts brassStore ⟨none, none, none, none, none, some "xyz", none⟩).page
        = (listProducts brassStore ⟨none, none, none, none, none, none, none⟩).page) := by
  refine ⟨by decide, by decide, by decide, by decide⟩

/-- Claim C6: search mode excludes structured filters.  When the `search`
parameter is a non-empty string, the response is entirely independent of
the `category`/`finish`/`material`/`sortBy` parameters, the items are
exactly the paginated disjunctive case-insensitive substring matches over
name, code, category and finish, and the total counts those matches. -/
theorem search_mode_exclusive :
    ∀ (s : MemStorage) (str : String) (ca fi ma so ca2 fi2 ma2 so2 : Option String)
      (pg lim : JSInt) (p l : Nat),
      ¬ str = "" → 1 ≤ p →
      listProductsCore s (some str) ca fi ma so pg lim
          = listProductsCore s (some str) ca2 fi2 ma2 so2 pg lim
        ∧ (listProductsCore s (some str) ca fi ma so (.int p) (.int l)).products
          = ((s.products.filter (matchesSearch str)).drop ((p - 1) * l)).take l
        ∧ (listProductsCore s (some str) ca fi ma so pg lim).total
          = (s.products.filter (matchesSearch str)).length := by
  intro s str ca fi ma so ca2 fi2 ma2 so2 pg lim p l hstr hp
  have ht : truthy (some str) = true := by simp [truthy, hstr]
  refine ⟨?_, ?_, ?_⟩
  · simp only [listProductsCore, ht, if_true]
  · simp only [listProductsCore, ht, if_true]
    rw [offset_int p l hp, searchProducts_paginate]
    rfl
  · simp only [listProductsCore, ht, if_true]
    rfl

/-- Witness for search-mode exclusivity: searching "brass" on the
brass/table store returns the single brass item even when
`category=Tables` and a sort key are also supplied. -/
theorem search_mode_exclusive_witness :
    (listProductsCore brassStore (some "brass") (some "Tables") none none (some "code")
        (.int 1) (.int 50)
      = listProductsCore brassStore (some "brass") none none none none (.int 1) (.int 50))
    ∧ ((listProductsCore brassStore (some "brass") (some "Tables") none none (some "code")
        (.int 1) (.int 50)).products
      = ((brassStore.products.filter (matchesSearch "brass")).drop ((1 - 1) * 50)).take 50)
    ∧ ((listProductsCore brassStore (some "brass") (some "Tables") none none (some "code")
        (.int 1) (.int 50)).total
      = (brassStore.products.filter (matchesSearch "brass")).length)
    ∧ (listProductsCore brassStore (some "brass") (some "Tables") none none (some "code")
        (.int 1) (.int 50)).products.length = 1 :=
  ⟨(search_mode_exclusive brassStore "brass" (some "Tables") none none (some "code")
      none none none none (.int 1) (.int 50) 1 50 (by decide) (by decide)).1,
   (search_mode_exclusive brassStore "brass" (some "Tables") none none (some "code")
      none none none none (.int 1) (.int 50) 1 50 (by decide) (by decide)).2.1,
   (search_mode_exclusive brassStore "brass" (some "Tables") none none (some "code")
      none none none none (.int 1) (.int 50) 1 50 (by decide) (by decide)).2.2,
   by decide⟩

theorem setByKey_fresh (key : α → Nat) (l : List α) (x : α)
    (h : ∀ y ∈ l, ¬ key y = key x) : setByKey key l x = l ++ [x] := by
  have hany : l.any (fun y => key y == key x) = false :=
    List.any_eq_false.mpr (fun y hy => by simpa using h y hy)
  simp [setByKey, hany]

/-- A store with one wishlist entry for user 7 and product 9. -/
def wishStore : MemStorage := ⟨[], [⟨1, 7, 9, 0⟩], 1, 2⟩

/-- Claim C7: wishlist add conflict.  In any state whose wishlist id
counter is fresh, adding an already-present (user, product) pair answers
HTTP 400 "Product already in wishlist" and leaves the state unchanged,
while adding an absent pair appends exactly one new association (with the
current counter as id) and returns it. -/
theorem wishlist_add_conflict :
    ∀ (s : MemStorage) (uid pid now : Nat),
      (∀ w ∈ s.wishlists, w.id < s.currentWishlistId) →
      (isInWishlist s uid pid = true →
        postWishlist s uid pid now = (.err 400 "Product already in wishlist", s))
      ∧ (isInWishlist s uid pid = false →
        postWishlist s uid pid now
          = (.ok ⟨s.currentWishlistId, uid, pid, now⟩,
             ⟨s.products, s.wishlists ++ [⟨s.currentWishlistId, uid, pid, now⟩],
              s.currentProductId, s.currentWishlistId + 1⟩)) := by
  intro s uid pid now hfresh
  constructor
  · intro h
    simp [postWishlist, h]
  · intro h
    simp only [postWishlist, h, Bool.false_eq_true, if_false, addToWishlist]
    rw [setByKey_fresh]
    intro y hy
    have h2 := hfresh y hy
    intro hc
    rw [show WishlistEntry.id ⟨s.currentWishlistId, uid, pid, now⟩ = s.currentWishlistId from rfl]
      at hc
    omega

/-- Witness for the wishlist add conflict: the duplicate pair on
`wishStore` is rejected with the state unchanged, and the same pair on the
empty store creates exactly one entry. -/
theorem wishlist_add_conflict_witness :
    postWishlist wishStore 7 9 5 = (.err 400 "Product already in wishlist", wishStore)
    ∧ postWishlist emptyStore 7 9 5
      = (.ok ⟨1, 7, 9, 5⟩, ⟨[], [⟨1, 7, 9, 5⟩], 1, 2⟩) :=
  ⟨(wishlist_add_conflict wishStore 7 9 5 (by decide)).1 (by decide),
   (wishlist_add_conflict emptyStore 7 9 5 (by decide)).2 (by decide)⟩

/-- Claim C8: wishlist remove idempotence.  In any state with at most one
entry per (user, product) pair, `removeFromWishlist` reports whether an
entry was actually deleted, a second call in a row reports `false`, and
removing an absent pair reports `false` and leaves the state unchanged
(and never errors — the operation is total). -/
theorem wishlist_remove_idempotent :
    ∀ (s : MemStorage) (uid pid : Nat),
      (s.wishlists.filter (fun w => w.userId == uid && w.productId == pid)).length ≤ 1 →
      ((removeFromWishlist s uid pid).1 = isInWishlist s uid pid)
      ∧ ((removeFromWishlist (removeFromWishlist s uid pid).2 uid pid).1 = false)
      ∧ (isInWishlist s uid pid = false → removeFromWishlist s uid pid = (false, s)) := by
  intro s uid pid hinv
  cases hfind : s.wishlists.find? (fun w => w.userId == uid && w.productId == pid) with
  | none =>
    have hall := List.find?_eq_none.mp hfind
    have hany : isInWishlist s uid pid = false :=
      List.any_eq_false.mpr (fun w hw => by simpa using hall w hw)
    have hrem : removeFromWishlist s uid pid = (false, s) := by
      simp [removeFromWishlist, hfind]
    refine ⟨by rw [hrem, hany], ?_, fun _ => hrem⟩
    rw [hrem]
    simp [removeFromWishlist, hfind]
  | some w =>
    have hw_mem : w ∈ s.wishlists := List.mem_of_find?_eq_some hfind
    have hw_pred := List.find?_some hfind
    simp only [] at hw_pred
    have huniq : ∀ y ∈ s.wishlists, (y.userId == uid && y.productId == pid) = true → y = w := by
      have hwf : w ∈ s.wishlists.filter (fun w => w.userId == uid && w.productId == pid) :=
        List.mem_filter.mpr ⟨hw_mem, hw_pred⟩
      intro y hy hpy
      have hyf : y ∈ s.wishlists.filter (fun w => w.userId == uid && w.productId == pid) :=
        List.mem_filter.mpr ⟨hy, hpy⟩
      cases hf : s.wishlists.filter (fun w => w.userId == uid && w.productId == pid) with
      | nil => rw [hf] at hwf; exact absurd hwf (List.not_mem_nil w)
      | cons a as =>
        have has : as = [] := by
          rw [hf] at hinv
          simp only [List.length_cons] at hinv
          exact List.eq_nil_of_length_eq_zero (by omega)
        rw [hf, has] at hwf hyf
        have h1 : w = a := by simpa using hwf
        have h2 : y = a := by simpa using hyf
        rw [h1, h2]
    have hrem : removeFromWishlist s uid pid
        = (s.wishlists.any (fun y => y.id == w.id),
           ⟨s.products, s.wishlists.filter (fun y => !(y.id == w.id)),
            s.currentProductId, s.currentWishlistId⟩) := by
      simp [removeFromWishlist, hfind, deleteByKey]
    have hany1 : s.wishlists.any (fun y => y.id == w.id) = true :=
      List.any_eq_true.mpr ⟨w, hw_mem, by simp⟩
    have hin : isInWishlist s uid pid = true :=
      List.any_eq_true.mpr ⟨w, hw_mem, hw_pred⟩
    refine ⟨by rw [hrem, hany1, hin], ?_, ?_⟩
    · have hfind2 : (s.wishlists.filter (fun y => !(y.id == w.id))).find?
          (fun w => w.userId == uid && w.productId == pid) = none := by
        apply List.find?_eq_none.mpr
        intro y hy
        have hy' := List.mem_filter.mp hy
        intro hpy
        have : y = w := huniq y hy'.1 hpy
        rw [this] at hy'
        simpa using hy'.2
      rw [hrem]
      simp [removeFromWishlist, hfind2]
    · intro hcontra
      rw [hin] at hcontra
      simp at hcontra

/-- Witness for wishlist remove idempotence on the one-entry store: the
first removal reports the prior membership, the second reports `false`. -/
theorem wishlist_remove_idempotent_witness :
    ((removeFromWishlist wishStore 7 9).1 = isInWishlist wishStore 7 9)
    ∧ ((removeFromWishlist (removeFromWishlist wishStore 7 9).2 7 9).1 = false)
    ∧ (isInWishlist wishStore 7 9 = false → removeFromWishlist wishStore 7 9 = (false, wishStore)) :=
  wishlist_remove_idempotent wishStore 7 9 (by decide)

theorem joinWishlist_ok (ps : List Product) :
    ∀ ws : List WishlistEntry, (∀ w ∈ ws, ∃ p ∈ ps, p.id = w.productId) →
      ∃ l, joinWishlist ps ws = .ok l
        ∧ l.map Prod.fst = ws
        ∧ ∀ pr ∈ l, pr.2 ∈ ps ∧ pr.2.id = pr.1.productId := by
  intro ws
  induction ws with
  | nil => intro _; exact ⟨[], rfl, rfl, by simp⟩
  | cons w ws ih =>
    intro h
    obtain ⟨p, hp_mem, hp_id⟩ := h w (List.mem_cons_self w ws)
    have hsome : (ps.find? (fun q => q.id == w.productId)).isSome :=
      List.find?_isSome.mpr ⟨p, hp_mem, by simp [hp_id]⟩
    obtain ⟨p0, hfind⟩ := Option.isSome_iff_exists.mp hsome
    have hp0_mem : p0 ∈ ps := List.mem_of_find?_eq_some hfind
    have hp0_id := List.find?_some hfind
    simp only [beq_iff_eq] at hp0_id
    obtain ⟨l0, hl0, hmap, hprops⟩ := ih (fun w' hw' => h w' (List.mem_cons_of_mem w hw'))
    refine ⟨(w, p0) :: l0, ?_, ?_, ?_⟩
    · simp only [joinWishlist, hfind, hl0]
    · simp [hmap]
    · intro pr hpr
      rcases List.mem_cons.mp hpr with rfl | hpr0
      · exact ⟨hp0_mem, hp0_id⟩
      · exact hprops pr hpr0

theorem joinWishlist_err (ps : List Product) :
    ∀ ws : List WishlistEntry,
      (∃ w ∈ ws, ∀ p ∈ ps, ¬ p.id = w.productId) →
      ∃ msg, joinWishlist ps ws = .error msg := by
  intro ws
  induction ws with
  | nil => intro h; obtain ⟨w, hw, _⟩ := h; exact absurd hw (List.not_mem_nil w)
  | cons w0 ws ih =>
    intro h
    obtain ⟨w, hw, hnone⟩ := h
    rcases List.mem_cons.mp hw with rfl | hw_tail
    · have hfind : ps.find? (fun q => q.id == w.productId) = none :=
        List.find?_eq_none.mpr (fun p hp => by simpa using hnone p hp)
      exact ⟨"Product not found for wishlist item", by simp [joinWishlist, hfind]⟩
    · cases hfind : ps.find? (fun q => q.id == w0.productId) with
      | none => exact ⟨"Product not found for wishlist item", by simp [joinWishlist, hfind]⟩
      | some p0 =>
        obtain ⟨msg, hmsg⟩ := ih ⟨w, hw_tail, hnone⟩
        refine ⟨msg, ?_⟩
        simp only [joinWishlist, hfind, hmsg]

/-- A store with one wishlist entry for user 3 whose product id 42 does not
exist (the product was deleted). -/
def danglingStore : MemStorage := ⟨[], [⟨1, 3, 42, 0⟩], 1, 2⟩

/-- A store where user 3's only wishlist entry references the existing
product 42. -/
def joinedStore : MemStorage :=
  ⟨[mkProduct 42 "N" "C-42" "Cat" "F" "M" 0], [⟨1, 3, 42, 0⟩], 43, 2⟩

/-- Claim C9 (amended): when every product referenced by the user's
wishlist entries exists, `getWishlistByUser` returns one
{association, product} pair per entry of that user; but an association
whose product has been deleted makes the in-memory operation fail with an
error instead of being omitted (the database backend's inner join omits
it). -/
theorem wishlist_join_semantics :
    ∀ (s : MemStorage) (uid : Nat),
      ((∀ w ∈ s.wishlists, w.userId = uid → ∃ p ∈ s.products, p.id = w.productId) →
        ∃ l, getWishlistByUser s uid = .ok l
          ∧ l.map Prod.fst = s.wishlists.filter (fun w => w.userId == uid)
          ∧ ∀ pr ∈ l, pr.2 ∈ s.products ∧ pr.2.id = pr.1.productId)
      ∧ ((∃ w ∈ s.wishlists, w.userId = uid ∧ ∀ p ∈ s.products, ¬ p.id = w.productId) →
        ∃ msg, getWishlistByUser s uid = .error msg) := by
  intro s uid
  constructor
  · intro h
    apply joinWishlist_ok
    intro w hw
    have hw' := List.mem_filter.mp hw
    exact h w hw'.1 (by simpa using hw'.2)
  · intro h
    obtain ⟨w, hw, hwuid, hnone⟩ := h
    apply joinWishlist_err
    exact ⟨w, List.mem_filter.mpr ⟨hw, by simp [hwuid]⟩, hnone⟩

/-- Counterexample to claim C9 as stated: on `danglingStore`, user 3's
entry references the absent product 42 and the in-memory listing fails
with an error rather than omitting the entry. -/
theorem wishlist_join_counterexample :
    danglingStore.wishlists = [⟨1, 3, 42, 0⟩]
    ∧ (∀ p ∈ danglingStore.products, ¬ p.id = 42)
    ∧ getWishlistByUser danglingStore 3 = .error "Product not found for wishlist item" :=
  ⟨rfl, by decide, rfl⟩

/-- Witness for the amended wishlist join semantics on the store whose
referenced product exists. -/
theorem wishlist_join_semantics_witness :
    ∃ l, getWishlistByUser joinedStore 3 = .ok l
      ∧ l.map Prod.fst = joinedStore.wishlists.filter (fun w => w.userId == 3)
      ∧ ∀ pr ∈ l, pr.2 ∈ joinedStore.products ∧ pr.2.id = pr.1.productId :=
  (wishlist_join_semantics joinedStore 3).1 (by decide)

/-- No two products of the list share a `code`. -/
def codesUnique (ps : List Product) : Prop := ps.Pairwise (fun a b => ¬ a.code = b.code)

/-- The id counter dominates every stored product id (an invariant of
reachable stores that makes `Map.set` with a fresh id an append). -/
def productIdsFresh (s : MemStorage) : Prop := ∀ p ∈ s.products, p.id < s.currentProductId

theorem createProduct_products (s : MemStorage) (ip : InsertProduct) (now : Nat)
    (hf : productIdsFresh s) :
    (createProduct s ip now).2.products
      = s.products ++ [⟨s.currentProductId, ip.name, ip.code, ip.category, ip.finish,
          ip.material, now⟩] := by
  simp only [createProduct]
  rw [setByKey_fresh]
  intro y hy
  have h2 := hf y hy
  intro hc
  rw [show Product.id ⟨s.currentProductId, ip.name, ip.code, ip.category, ip.finish,
      ip.material, now⟩ = s.currentProductId from rfl] at hc
  omega

theorem createProduct_fresh (s : MemStorage) (ip : InsertProduct) (now : Nat)
    (hf : productIdsFresh s) : productIdsFresh (createProduct s ip now).2 := by
  intro q hq
  rw [createProduct_products s ip now hf] at hq
  rcases List.mem_append.mp hq with hq1 | hq2
  · have := hf q hq1
    simp only [createProduct]
    omega
  · simp only [List.mem_singleton] at hq2
    rw [hq2]
    simp only [createProduct]
    omega

theorem createProduct_codes (s : MemStorage) (ip : InsertProduct) (now : Nat)
    (hf : productIdsFresh s) (hu : codesUnique s.products)
    (hc : ∀ p ∈ s.products, ¬ p.code = ip.code) :
    codesUnique (createProduct s ip now).2.products := by
  rw [codesUnique, createProduct_products s ip now hf]
  rw [List.pairwise_append]
  refine ⟨hu, by simp, ?_⟩
  intro a ha b hb
  simp only [List.mem_singleton] at hb
  rw [hb]
  exact hc a ha

/-- Claim C10 (amended): `createProduct` and `bulkCreateProducts` never
check for an existing code; they preserve code uniqueness exactly when the
inserted codes are absent from the store (and pairwise distinct for a bulk
insert). -/
theorem code_uniqueness_amended :
    (∀ (s : MemStorage) (ip : InsertProduct) (now : Nat),
        productIdsFresh s → codesUnique s.products →
        (∀ p ∈ s.products, ¬ p.code = ip.code) →
        codesUnique (createProduct s ip now).2.products)
    ∧ (∀ (s : MemStorage) (ips : List InsertProduct) (now : Nat),
        productIdsFresh s → codesUnique s.products →
        (∀ ip ∈ ips, ∀ p ∈ s.products, ¬ p.code = ip.code) →
        ips.Pairwise (fun a b => ¬ a.code = b.code) →
        codesUnique (bulkCreateProducts s ips now).2.products) := by
  constructor
  · exact createProduct_codes
  · intro s ips
    induction ips generalizing s with
    | nil => intro now _ hu _ _; exact hu
    | cons ip rest ih =>
      intro now hf hu hc hpw
      rw [List.pairwise_cons] at hpw
      obtain ⟨hip, hrest⟩ := hpw
      have hcodes1 : codesUnique (createProduct s ip now).2.products :=
        createProduct_codes s ip now hf hu (hc ip (List.mem_cons_self ip rest))
      have hfresh1 : productIdsFresh (createProduct s ip now).2 :=
        createProduct_fresh s ip now hf
      have hc1 : ∀ ip' ∈ rest, ∀ p ∈ (createProduct s ip now).2.products,
          ¬ p.code = ip'.code := by
        intro ip' hip' p hp
        rw [createProduct_products s ip now hf] at hp
        rcases List.mem_append.mp hp with hp1 | hp2
        · exact hc ip' (List.mem_cons_of_mem ip hip') p hp1
        · simp only [List.mem_singleton] at hp2
          rw [hp2]
          exact hip ip' hip'
      have := ih (createProduct s ip now).2 now hfresh1 hcodes1 hc1 hrest
      simpa [bulkCreateProducts] using this

/-- Witness for the amended code-uniqueness statement: one fresh-code
create and a two-product bulk create with distinct codes, starting from
the empty store. -/
theorem code_uniqueness_amended_witness :
    codesUnique ((createProduct emptyStore ⟨"N1", "A", "C", "F", "M"⟩ 0).2.products)
    ∧ codesUnique ((bulkCreateProducts emptyStore
        [⟨"N1", "A", "C", "F", "M"⟩, ⟨"N2", "B", "C", "F", "M"⟩] 0).2.products) :=
  ⟨code_uniqueness_amended.1 emptyStore ⟨"N1", "A", "C", "F", "M"⟩ 0
      (by intro p hp; exact absurd hp (List.not_mem_nil p))
      (by unfold codesUnique; decide)
      (by intro p hp; exact absurd hp (List.not_mem_nil p)),
   code_uniqueness_amended.2 emptyStore
      [⟨"N1", "A", "C", "F", "M"⟩, ⟨"N2", "B", "C", "F", "M"⟩] 0
      (by intro p hp; exact absurd hp (List.not_mem_nil p))
      (by unfold codesUnique; decide)
      (by intro ip _ p hp; exact absurd hp (List.not_mem_nil p))
      (by decide)⟩

/-- A reachable one-product store holding code "A". -/
def dupStore : MemStorage := (createProduct emptyStore ⟨"N1", "A", "C", "F", "M"⟩ 0).2

/-- Counterexample to claim C10 as stated: starting from a store whose
codes are unique, `createProduct` with the already-present code "A"
succeeds and yields a state with two products sharing that code. -/
theorem code_uniqueness_counterexample :
    codesUnique dupStore.products
    ∧ ¬ codesUnique ((createProduct dupStore ⟨"N2", "A", "C2", "F2", "M2"⟩ 1).2.products)
    ∧ ((createProduct dupStore ⟨"N2", "A", "C2", "F2", "M2"⟩ 1).2.products.map Product.code)
      = ["A", "A"] := by
  refine ⟨?_, ?_, by decide⟩
  · unfold codesUnique
    decide
  · unfold codesUnique
    decide

end Vmake
